import Mathlib

/-!
Verification of the MCP chat client (`client.py`): a shallow embedding of the
tool-call orchestration loop (`process_query`), the interactive loop
(`chat_loop`), the connection setup (`connect_to_server`), and the derivation
of LLM function declarations from tool descriptors.

External collaborators (the LLM completion endpoint, the MCP session's
`call_tool`, and the Python standard library's `json.loads` and `str`) are
modelled as oracles supplied in an `Env` record: the embedding records every
outbound interaction (tool listing, completion requests, tool invocations) in
an event trace, so ordering and counting claims become statements about the
trace.
-/

mutual

/-- JSON values, the shape of `json.loads` output and of tool input schemas.
Arrays and objects are given by mutual inductives so that structural
recursion over them stays elementary. -/
inductive Json where
  | null : Json
  | bool (b : Bool) : Json
  | num (n : Int) : Json
  | str (s : String) : Json
  | arr (elems : JsonArr) : Json
  | obj (fields : JsonObj) : Json

/-- A JSON array: a list of JSON values. -/
inductive JsonArr where
  | nil : JsonArr
  | cons (hd : Json) (tl : JsonArr) : JsonArr

/-- A JSON object: an ordered association of string keys to JSON values. -/
inductive JsonObj where
  | nil : JsonObj
  | cons (key : String) (val : Json) (tl : JsonObj) : JsonObj

end

mutual

/-- Model of Python's `str()` applied to the object `json.loads` returned,
as used by the f-string `f"[Calling tool {tool_name} with args {tool_args}]"`
in `process_query`. -/
def pyStr : Json → String
  | .null => "None"
  | .bool true => "True"
  | .bool false => "False"
  | .num n => toString n
  | .str s => "'" ++ s ++ "'"
  | .arr es => "[" ++ pyStrArr es ++ "]"
  | .obj fs => "\x7b" ++ pyStrObj fs ++ "\x7d"

/-- `str()` of the elements of a Python list, comma separated. -/
def pyStrArr : JsonArr → String
  | .nil => ""
  | .cons x .nil => pyStr x
  | .cons x tl => pyStr x ++ ", " ++ pyStrArr tl

/-- `str()` of the items of a Python dict, comma separated. -/
def pyStrObj : JsonObj → String
  | .nil => ""
  | .cons k v .nil => "'" ++ k ++ "': " ++ pyStr v
  | .cons k v tl => "'" ++ k ++ "': " ++ pyStr v ++ ", " ++ pyStrObj tl

end

/-- Model of Python's `str.endswith`: suffix test on the character
sequence. -/
def pyEndsWith (s suffix : String) : Bool := suffix.data.isSuffixOf s.data

/-- Model of Python's `str.strip()`: drop whitespace from both ends. -/
def pyStrip (s : String) : String :=
  ⟨((s.data.dropWhile Char.isWhitespace).reverse.dropWhile
    Char.isWhitespace).reverse⟩

/-- Model of Python's `str.lower()`: lowercase every character. -/
def pyLower (s : String) : String := ⟨s.data.map Char.toLower⟩

/-- One tool as reported by the MCP server's `list_tools`: `tool.name`,
`tool.description`, `tool.inputSchema` (client.py lines 66-76). -/
structure ToolDescriptor where
  name : String
  description : String
  inputSchema : Json

/-- The nested `"function"` member of an entry of `available_tools`. -/
structure FunctionSpec where
  name : String
  parameters : Json

/-- One entry of the `available_tools` list built in `process_query`:
`{"type": "function", "description": ..., "function": {"name": ...,
"parameters": ...}}` (client.py lines 67-76). -/
structure FunctionDeclaration where
  type : String
  description : String
  function : FunctionSpec

/-- The per-descriptor body of the `available_tools` list comprehension
(client.py lines 68-75). -/
def toFunctionDeclaration (tool : ToolDescriptor) : FunctionDeclaration :=
  { type := "function"
    description := tool.description
    function := { name := tool.name, parameters := tool.inputSchema } }

/-- The whole `available_tools` list comprehension (client.py lines 67-76). -/
def availableTools (tools : List ToolDescriptor) : List FunctionDeclaration :=
  tools.map toFunctionDeclaration

/-- `tool_call.function` of an OpenAI tool call: the tool's name and its
arguments as the raw string the LLM emitted (decoded by `json.loads`). -/
structure ToolCallFunction where
  name : String
  arguments : String

/-- One element of `message.tool_calls`. -/
structure ToolCall where
  function : ToolCallFunction

/-- An OpenAI chat message as inspected by `process_query`: `message.role`,
`message.content` (which may be Python `None`), and `message.tool_calls`
(Python `None` or empty list are both modelled as the empty list, since the
code only tests its truthiness). `hasattr(message, 'content')` is always true
on these API objects, so it is not modelled separately. -/
structure ChatMsg where
  role : String
  content : Option String
  tool_calls : List ToolCall

/-- One element of `response.choices`. -/
structure Choice where
  message : ChatMsg

/-- A chat-completions response. -/
structure Completion where
  choices : List Choice

/-- The value of `await self.session.call_tool(...)`, accessed by the code
only as `result['content']`. -/
structure CallToolResult where
  content : String

/-- A message dict appended to the `messages` transcript:
`{"role": ..., "content": ...}`. -/
structure PyMsg where
  role : String
  content : String

/-- Environment of external collaborators for one `process_query` run:
the current tool list (what `session.list_tools()` returns), the scripted
LLM (`completions n` is the response to the n-th completion request of the
run, counting from 0), the MCP server's `call_tool`, and `json.loads`
(returning the decoded value or the decode error message). -/
structure Env where
  tools : List ToolDescriptor
  completions : Nat → Completion
  callTool : String → Json → CallToolResult
  jsonLoads : String → Except String Json

/-- Outbound interactions of one `process_query` run, in order:
`listTools` is `session.list_tools()` (line 66); `completionRequest` is
`client.chat.completions.create` carrying the transcript and, for the
initial request only, the tool declarations (lines 78-83 and 114-118);
`callTool` is `session.call_tool` (line 98). -/
inductive Event where
  | listTools : Event
  | completionRequest (messages : List PyMsg) (tools : Option (List FunctionDeclaration)) : Event
  | callTool (name : String) (args : Json) : Event

/-- Python exceptions that can escape to a caller in this model.
`jsonDecodeError` is `json.JSONDecodeError` from `json.loads`;
`indexError` is `IndexError` from `response.choices[0]`;
`valueError` is the `ValueError` raised by `connect_to_server`;
the remaining constructors let the interactive-loop model cover the
`UnicodeDecodeError` branch and arbitrary other exceptions. -/
inductive PyErr where
  | jsonDecodeError (msg : String)
  | indexError
  | valueError (msg : String)
  | unicodeDecodeError (msg : String)
  | otherError (msg : String)
deriving DecidableEq

/-- Mutable locals of the loop over choices in `process_query`:
`messages`, `final_text` (entries may be Python `None`), the write-only
`tool_results` list, the index of the next scripted completion, and the
trace of outbound events so far. -/
structure LoopSt where
  messages : List PyMsg
  final_text : List (Option String)
  tool_results : List (String × CallToolResult)
  nextIdx : Nat
  trace : List Event

/-- Result of a `process_query` run: the trace of outbound events performed
before returning or raising, and the returned string or escaped exception. -/
structure QueryRun where
  trace : List Event
  result : Except PyErr String

/-- One iteration of the `for tool_call in message.tool_calls:` loop
(client.py lines 93-120). `content` is the enclosing assistant message's
`message.content`: the code re-tests it (line 104) on every iteration.
Decodes the argument string (`json.loads`, line 95 — a failure raises
before the RPC call), dispatches `session.call_tool` (line 98), records the
trace line (line 101), appends the assistant content when truthy and the
tool result to the transcript (lines 104-112), issues the follow-up
completion request (lines 114-118), and appends the first follow-up
choice's content (line 120 — `IndexError` when the follow-up has no
choices, after the request was already made). An exception is returned
together with the locals as mutated so far. -/
def runCallOne (env : Env) (content : Option String) (tc : ToolCall)
    (st : LoopSt) : Except (LoopSt × PyErr) LoopSt :=
  match env.jsonLoads tc.function.arguments with
  | .error m => .error (st, .jsonDecodeError m)
  | .ok args =>
    let result := env.callTool tc.function.name args
    let traceLine := "[Calling tool " ++ tc.function.name ++ " with args " ++
      pyStr args ++ "]"
    let msgs1 : List PyMsg :=
      match content with
      | some c =>
        if c ≠ "" then st.messages ++ [⟨"assistant", c⟩] else st.messages
      | none => st.messages
    let msgs2 := msgs1 ++ [⟨"user", result.content⟩]
    let resp := env.completions st.nextIdx
    let st1 : LoopSt :=
      { messages := msgs2
        final_text := st.final_text ++ [some traceLine]
        tool_results := st.tool_results ++ [(tc.function.name, result)]
        nextIdx := st.nextIdx + 1
        trace := st.trace ++ [.callTool tc.function.name args,
          .completionRequest msgs2 none] }
    match resp.choices with
    | [] => .error (st1, .indexError)
    | c :: _ => .ok { st1 with final_text := st1.final_text ++ [c.message.content] }

/-- Either propagate an escaped exception or continue the loop. -/
def stepCont (r : Except (LoopSt × PyErr) LoopSt)
    (k : LoopSt → LoopSt × Option PyErr) : LoopSt × Option PyErr :=
  match r with
  | .error (st1, e) => (st1, some e)
  | .ok st1 => k st1

/-- The inner `for tool_call in message.tool_calls:` loop (client.py lines
93-120): runs `runCallOne` on each call in order, stopping at the first
escaped exception. -/
def runCalls (env : Env) (content : Option String) :
    List ToolCall → LoopSt → LoopSt × Option PyErr
  | [], st => (st, none)
  | tc :: rest, st =>
    stepCont (runCallOne env content tc st)
      (fun st1 => runCalls env content rest st1)

/-- The outer `for choice in response.choices:` loop (client.py lines
89-122). Python iterates the snapshot of the initial response's choices:
reassigning `response` inside the body (line 114) does not change the
iteration sequence. -/
def runChoices (env : Env) : List Choice → LoopSt → LoopSt × Option PyErr
  | [], st => (st, none)
  | ch :: rest, st =>
    let m := ch.message
    if m.role = "assistant" then
      match m.tool_calls with
      | [] =>
        runChoices env rest { st with final_text := st.final_text ++ [m.content] }
      | tc :: tcs =>
        match runCalls env m.content (tc :: tcs) st with
        | (st1, none) => runChoices env rest st1
        | (st1, some e) => (st1, some e)
    else
      runChoices env rest st

/-- Locals of `process_query` before the loop over choices starts
(client.py lines 59-87): the transcript holding the single user message,
empty accumulators, and the trace of the tool listing (line 66) and the
initial completion request carrying the transcript and the derived
`available_tools` (lines 78-83). The next scripted completion is number 1:
number 0 is the initial response being inspected. -/
def initSt (env : Env) (query : String) : LoopSt :=
  { messages := [⟨"user", query⟩]
    final_text := []
    tool_results := []
    nextIdx := 1
    trace := [.listTools,
      .completionRequest [⟨"user", query⟩] (some (availableTools env.tools))] }

/-- The tail of `process_query` (client.py lines 123-124): on normal
completion of the loop, filter `None` out of `final_text` and join with
newlines; an escaped exception propagates to the caller. -/
def finishRun : LoopSt × Option PyErr → QueryRun
  | (st, none) =>
    { trace := st.trace
      result := .ok (String.intercalate "\n" (st.final_text.filterMap id)) }
  | (st, some e) => { trace := st.trace, result := .error e }

/-- `MCPClient.process_query` (client.py lines 57-124) against the oracles
in `env`: builds the initial transcript, lists tools, derives
`available_tools`, issues the initial completion request (all in `initSt`),
runs the loop over the initial response's choices, and finishes
(`finishRun`). -/
def process_query (env : Env) (query : String) : QueryRun :=
  finishRun (runChoices env (env.completions 0).choices (initSt env query))

/-- The message printed by the exception handlers of `chat_loop` (client.py
lines 140-143): the dedicated `UnicodeDecodeError` branch prints
`"Decoding error: ..."`, the catch-all `Exception` branch prints
`"Error: ..."`. `pyErrMessage` stands for Python's `str(e)`. -/
def pyErrMessage : PyErr → String
  | .jsonDecodeError m => m
  | .indexError => "list index out of range"
  | .valueError m => m
  | .unicodeDecodeError m => m
  | .otherError m => m

/-- The line printed for an exception caught at the interactive-loop
boundary (client.py lines 140-143). -/
def reportLine : PyErr → String
  | .unicodeDecodeError m => "Decoding error: " ++ m
  | e => "Error: " ++ pyErrMessage e

/-- `MCPClient.chat_loop` (client.py lines 126-143), with the interactive
input modelled as a list of lines and query processing as an oracle (any
outcome `process_query` could have). Returns the lines printed in response
to queries: each input is stripped; a case-insensitive `"quit"` ends the
loop; otherwise the oracle runs inside `try`, a successful response is
printed after a blank line, and any exception is caught, reported, and the
loop continues with the next input. Exhausting the input list models the
end of the session. -/
def chat_loop (oracle : String → Except PyErr String) :
    List String → List String
  | [] => []
  | line :: rest =>
    let query := pyStrip line
    if pyLower query = "quit" then []
    else
      match oracle query with
      | .ok response => ("\n" ++ response) :: chat_loop oracle rest
      | .error e => reportLine e :: chat_loop oracle rest

/-- Startup interactions of `connect_to_server` once validation passes:
launching the server subprocess over stdio, the session handshake, and the
initial tool listing (client.py lines 37-54). -/
inductive ConnectEvent where
  | launchSubprocess (command : String) (script : String)
  | sessionHandshake
  | listTools
deriving DecidableEq

/-- Result of a `connect_to_server` run: the startup interactions performed,
and either the `ValueError` or the connected configuration (the launch
command, its arguments, and the tool names printed at line 55). -/
structure ConnectRun where
  trace : List ConnectEvent
  command : Option String
  args : List String
  toolNames : List String
  result : Except PyErr Unit

/-- `MCPClient.connect_to_server` (client.py lines 26-55): validates the
script suffix, raising `ValueError` before any subprocess or RPC activity
when the path ends in neither `.py` nor `.js`; otherwise launches
`python`/`node` on the script, performs the session handshake and lists tools
(`serverTools` is what the connected server reports). -/
def connect_to_server (serverTools : List ToolDescriptor)
    (server_script_path : String) : ConnectRun :=
  let is_python := pyEndsWith server_script_path ".py"
  let is_js := pyEndsWith server_script_path ".js"
  if ¬(is_python ∨ is_js) then
    { trace := []
      command := none
      args := []
      toolNames := []
      result := .error (.valueError "Server script must be a .py or .js file") }
  else
    let command := if is_python then "python" else "node"
    { trace := [.launchSubprocess command server_script_path, .sessionHandshake,
        .listTools]
      command := some command
      args := [server_script_path]
      toolNames := serverTools.map (fun t => t.name)
      result := .ok () }

/-- The kind of an outbound event, forgetting transcript and schema
payloads: used to state ordering properties of traces. -/
inductive EvKind where
  | listToolsK : EvKind
  | completionK (withTools : Bool) : EvKind
  | callK (name : String) : EvKind
deriving DecidableEq

/-- Kind of one event. -/
def eventKind : Event → EvKind
  | .listTools => .listToolsK
  | .completionRequest _ (some _) => .completionK true
  | .completionRequest _ none => .completionK false
  | .callTool name _ => .callK name

/-- The tool names dispatched over the RPC channel by a trace, in order. -/
def callNames (tr : List Event) : List String :=
  tr.filterMap fun e =>
    match e with
    | .callTool name _ => some name
    | _ => none

/-- How many completion requests a trace contains. -/
def completionCount (tr : List Event) : Nat :=
  (tr.filter fun e =>
    match e with
    | .completionRequest _ _ => true
    | _ => false).length

/-- How many RPC tool calls with the given name a trace contains. -/
def callsNamed (name : String) (tr : List Event) : Nat :=
  (tr.filter fun e =>
    match e with
    | .callTool n _ => n = name
    | _ => false).length

/-- The tool calls `process_query` dispatches from a list of choices: the
concatenation, over the choices whose message is an assistant message with
a nonempty `tool_calls`, of those `tool_calls` in order. -/
def emittedCalls : List Choice → List ToolCall
  | [] => []
  | ch :: rest =>
    if ch.message.role = "assistant" then
      match ch.message.tool_calls with
      | [] => emittedCalls rest
      | tc :: tcs => (tc :: tcs) ++ emittedCalls rest
    else emittedCalls rest

/-! Helper lemmas about trace projections. -/

theorem callNames_append (a b : List Event) :
    callNames (a ++ b) = callNames a ++ callNames b := by
  simp [callNames]

theorem completionCount_append (a b : List Event) :
    completionCount (a ++ b) = completionCount a + completionCount b := by
  simp [completionCount]

theorem intercalate_singleton (sep s : String) :
    String.intercalate sep [s] = s := rfl

/-! Helper lemmas about the orchestration loop. -/

/-- When the scripted completion for the current round has at least one
choice, the only exception one loop iteration can raise is a JSON decode
error from `json.loads`. -/
theorem runCallOne_err_kind (env : Env) (content : Option String)
    (tc : ToolCall) (st st1 : LoopSt) (e : PyErr)
    (hc : ∀ n, (env.completions n).choices ≠ [])
    (h : runCallOne env content tc st = .error (st1, e)) :
    ∃ m, e = .jsonDecodeError m := by
  cases hj : env.jsonLoads tc.function.arguments with
  | error m =>
    simp only [runCallOne, hj, Except.error.injEq, Prod.mk.injEq] at h
    exact ⟨m, h.2.symm⟩
  | ok args =>
    simp only [runCallOne, hj] at h
    cases hch : (env.completions st.nextIdx).choices with
    | nil => exact absurd hch (hc st.nextIdx)
    | cons ch cr =>
      simp only [hch] at h
      exact Except.noConfusion h

/-- When every scripted completion has at least one choice, the only
exception that can escape the inner tool-call loop is a JSON decode error
from `json.loads`. -/
theorem runCalls_err_kind (env : Env) (content : Option String)
    (hc : ∀ n, (env.completions n).choices ≠ [])
    (calls : List ToolCall) (st st1 : LoopSt) (e : PyErr)
    (h : runCalls env content calls st = (st1, some e)) :
    ∃ m, e = .jsonDecodeError m := by
  induction calls generalizing st with
  | nil => simp [runCalls] at h
  | cons tc rest ih =>
    rw [runCalls] at h
    cases hco : runCallOne env content tc st with
    | error p =>
      obtain ⟨st2, e2⟩ := p
      simp only [hco, stepCont, Prod.mk.injEq, Option.some.injEq] at h
      obtain ⟨m, hm⟩ := runCallOne_err_kind env content tc st st2 e2 hc hco
      exact ⟨m, h.2 ▸ hm⟩
    | ok st2 =>
      simp only [hco, stepCont] at h
      exact ih _ h

/-- When every scripted completion has at least one choice, the only
exception that can escape the loop over choices is a JSON decode error. -/
theorem runChoices_err_kind (env : Env)
    (hc : ∀ n, (env.completions n).choices ≠ [])
    (cs : List Choice) (st st1 : LoopSt) (e : PyErr)
    (h : runChoices env cs st = (st1, some e)) :
    ∃ m, e = .jsonDecodeError m := by
  induction cs generalizing st with
  | nil => simp [runChoices] at h
  | cons ch rest ih =>
    rw [runChoices] at h
    by_cases hr : ch.message.role = "assistant"
    · simp only [hr, if_true] at h
      cases hts : ch.message.tool_calls with
      | nil =>
        simp only [hts] at h
        exact ih _ h
      | cons a b =>
        simp only [hts] at h
        cases hrc : runCalls env ch.message.content (a :: b) st with
        | mk st2 err =>
          cases err with
          | none =>
            simp only [hrc] at h
            exact ih _ h
          | some e2 =>
            simp only [hrc, Prod.mk.injEq, Option.some.injEq] at h
            obtain ⟨m, hm⟩ := runCalls_err_kind env ch.message.content hc
              (a :: b) st st2 e2 hrc
            exact ⟨m, h.2 ▸ hm⟩
    · simp only [hr, if_false] at h
      exact ih _ h

/-- When every scripted completion has at least one choice and every
argument string decodes, one loop iteration returns normally, dispatches
exactly its tool call over RPC, and issues exactly one follow-up
completion request. -/
theorem runCallOne_ok_spec (env : Env) (content : Option String)
    (tc : ToolCall) (st : LoopSt)
    (hc : ∀ n, (env.completions n).choices ≠ [])
    (hd : ∀ s, ∃ j, env.jsonLoads s = .ok j) :
    ∃ st1, runCallOne env content tc st = .ok st1 ∧
      callNames st1.trace = callNames st.trace ++ [tc.function.name] ∧
      completionCount st1.trace = completionCount st.trace + 1 := by
  obtain ⟨j, hj⟩ := hd tc.function.arguments
  cases hch : (env.completions st.nextIdx).choices with
  | nil => exact absurd hch (hc st.nextIdx)
  | cons ch cr =>
    simp only [runCallOne, hj, hch]
    refine ⟨_, rfl, ?_, ?_⟩
    · simp [callNames_append, callNames]
    · simp [completionCount_append, completionCount]

/-- When every scripted completion has at least one choice and every
argument string decodes, the inner tool-call loop returns normally,
dispatches exactly its tool calls (in order) over RPC, and issues exactly
one follow-up completion request per tool call. -/
theorem runCalls_ok_spec (env : Env) (content : Option String)
    (hc : ∀ n, (env.completions n).choices ≠ [])
    (hd : ∀ s, ∃ j, env.jsonLoads s = .ok j)
    (calls : List ToolCall) (st : LoopSt) :
    ∃ st1, runCalls env content calls st = (st1, none) ∧
      callNames st1.trace =
        callNames st.trace ++ calls.map (fun t => t.function.name) ∧
      completionCount st1.trace =
        completionCount st.trace + calls.length := by
  induction calls generalizing st with
  | nil => exact ⟨st, by simp [runCalls], by simp, by simp⟩
  | cons tc rest ih =>
    obtain ⟨stm, hone, hcn1, hcc1⟩ := runCallOne_ok_spec env content tc st hc hd
    rw [runCalls]
    simp only [hone, stepCont]
    obtain ⟨st1, heq, hcn, hcc⟩ := ih stm
    refine ⟨st1, heq, ?_, ?_⟩
    · rw [hcn, hcn1]
      simp
    · rw [hcc, hcc1]
      simp
      omega

/-- When every scripted completion has at least one choice and every
argument string decodes, the loop over choices returns normally, dispatches
exactly the emitted tool calls of its choices (in order) over RPC, and
issues exactly one follow-up completion request per dispatched call. -/
theorem runChoices_ok_spec (env : Env)
    (hc : ∀ n, (env.completions n).choices ≠ [])
    (hd : ∀ s, ∃ j, env.jsonLoads s = .ok j)
    (cs : List Choice) (st : LoopSt) :
    ∃ st1, runChoices env cs st = (st1, none) ∧
      callNames st1.trace =
        callNames st.trace ++ (emittedCalls cs).map (fun t => t.function.name) ∧
      completionCount st1.trace =
        completionCount st.trace + (emittedCalls cs).length := by
  induction cs generalizing st with
  | nil => exact ⟨st, by simp [runChoices], by simp [emittedCalls], by simp [emittedCalls]⟩
  | cons ch rest ih =>
    rw [runChoices]
    by_cases hr : ch.message.role = "assistant"
    · simp only [hr, if_true]
      cases hts : ch.message.tool_calls with
      | nil =>
        obtain ⟨st1, heq, hcn, hcc⟩ := ih
          { st with final_text := st.final_text ++ [ch.message.content] }
        exact ⟨st1, heq, by simpa [emittedCalls, hr, hts] using hcn,
          by simpa [emittedCalls, hr, hts] using hcc⟩
      | cons a b =>
        obtain ⟨stm, hm, hmc, hmm⟩ := runCalls_ok_spec env ch.message.content
          hc hd (a :: b) st
        simp only [hm]
        obtain ⟨st1, heq, hcn, hcc⟩ := ih stm
        refine ⟨st1, heq, ?_, ?_⟩
        · rw [hcn, hmc]
          simp [emittedCalls, hr, hts]
        · rw [hcc, hmm]
          simp [emittedCalls, hr, hts]
          omega
    · simp only [hr, if_false]
      obtain ⟨st1, heq, hcn, hcc⟩ := ih st
      exact ⟨st1, heq, by simpa [emittedCalls, hr] using hcn,
        by simpa [emittedCalls, hr] using hcc⟩

/-! Claim theorems. -/

/-- Claim C3: for every sequence of tool descriptors returned by the tool
listing, the derived `available_tools` list has the same count and order,
and each element carries `type = "function"` with name and parameters
exactly equal to the corresponding descriptor's `name` and `inputSchema`
(and the descriptor's description). -/
theorem c3_function_declarations (ts : List ToolDescriptor) (i : Nat)
    (h : i < ts.length) (h2 : i < (availableTools ts).length) :
    (availableTools ts).length = ts.length ∧
    ((availableTools ts).get ⟨i, h2⟩).type = "function" ∧
    ((availableTools ts).get ⟨i, h2⟩).function.name = (ts.get ⟨i, h⟩).name ∧
    ((availableTools ts).get ⟨i, h2⟩).function.parameters =
      (ts.get ⟨i, h⟩).inputSchema ∧
    ((availableTools ts).get ⟨i, h2⟩).description = (ts.get ⟨i, h⟩).description := by
  refine ⟨by simp [availableTools], ?_, ?_, ?_, ?_⟩ <;>
    simp [availableTools, toFunctionDeclaration]

/-- Witness for C3 at a concrete one-descriptor list. -/
theorem c3_function_declarations_witness :
    0 < ([⟨"echo", "echoes a string", Json.null⟩] : List ToolDescriptor).length ∧
    (availableTools [⟨"echo", "echoes a string", Json.null⟩]).length = 1 ∧
    ((availableTools [⟨"echo", "echoes a string", Json.null⟩]).get
      ⟨0, by simp [availableTools]⟩).function.name = "echo" := by
  refine ⟨by decide, ?_, ?_⟩
  · exact (c3_function_declarations [⟨"echo", "echoes a string", Json.null⟩] 0
      (by decide) (by simp [availableTools])).1
  · exact (c3_function_declarations [⟨"echo", "echoes a string", Json.null⟩] 0
      (by decide) (by simp [availableTools])).2.2.1

/-- Claim C9: for every server script path ending in neither `.py` nor
`.js`, `connect_to_server` raises `ValueError` before launching any
subprocess or touching the RPC channel: the startup trace is empty and no
command, arguments, or tool names are recorded. -/
theorem c9_invalid_script_path (tools : List ToolDescriptor) (path : String)
    (hpy : ¬ pyEndsWith path ".py") (hjs : ¬ pyEndsWith path ".js") :
    connect_to_server tools path =
      { trace := []
        command := none
        args := []
        toolNames := []
        result := .error (.valueError "Server script must be a .py or .js file") } := by
  simp [connect_to_server, hpy, hjs]

/-- Witness for C9 at a concrete `.txt` path. -/
theorem c9_invalid_script_path_witness :
    connect_to_server [] "server.txt" =
      { trace := []
        command := none
        args := []
        toolNames := []
        result := .error (.valueError "Server script must be a .py or .js file") } :=
  c9_invalid_script_path [] "server.txt" (by decide) (by decide)

/-- Claim C8: a line that trims and lowercases to `"quit"` ends the
interactive loop without consulting the query processor (the result is `[]`
for every oracle); any other line is processed as a query (the oracle runs
on the trimmed line and the loop continues with the remaining input). -/
theorem c8_quit_ends_loop (oracle : String → Except PyErr String)
    (line : String) (rest : List String) :
    (pyLower (pyStrip line) = "quit" → chat_loop oracle (line :: rest) = []) ∧
    (pyLower (pyStrip line) ≠ "quit" →
      chat_loop oracle (line :: rest) =
        (match oracle (pyStrip line) with
         | .ok response => "\n" ++ response
         | .error e => reportLine e) :: chat_loop oracle rest) := by
  constructor <;> intro h
  · simp [chat_loop, h]
  · rw [chat_loop, if_neg h]
    rcases ho : oracle (pyStrip line) with e | r <;> simp [ho]

/-- Witness for C8: `"  QuIt  "` ends the session with further input
pending; `"hello"` is processed as a query. -/
theorem c8_quit_ends_loop_witness :
    chat_loop (fun _ => .ok "resp") ["  QuIt  ", "later"] = [] ∧
    chat_loop (fun _ => .ok "resp") ["hello"] = ["\nresp"] :=
  ⟨(c8_quit_ends_loop (fun _ => .ok "resp") "  QuIt  " ["later"]).1 (by decide),
   (c8_quit_ends_loop (fun _ => .ok "resp") "hello" []).2 (by decide)⟩

/-- Claim C7: an exception raised while processing a query is caught at the
interactive-loop boundary, a report line is printed, and the loop continues
with the remaining input instead of ending the session. -/
theorem c7_error_caught_loop_continues (oracle : String → Except PyErr String)
    (line : String) (rest : List String) (e : PyErr)
    (hq : pyLower (pyStrip line) ≠ "quit")
    (he : oracle (pyStrip line) = .error e) :
    chat_loop oracle (line :: rest) = reportLine e :: chat_loop oracle rest := by
  rw [chat_loop, if_neg hq, he]

/-- Witness for C7: a failing query is reported and the next query still
runs. -/
theorem c7_error_caught_loop_continues_witness :
    chat_loop
      (fun q => if q = "bad" then .error (.otherError "boom") else .ok "fine")
      ["bad", "good"] = ["Error: boom", "\nfine"] :=
  c7_error_caught_loop_continues
    (fun q => if q = "bad" then .error (.otherError "boom") else .ok "fine")
    "bad" ["good"] (.otherError "boom") (by decide) rfl

/-! Concrete environments for witnesses and counterexamples. -/

/-- A choice whose message is a plain assistant message. -/
def plainChoice (content : Option String) : Choice :=
  ⟨⟨"assistant", content, []⟩⟩

/-- A choice whose assistant message carries the given tool calls, each a
pair of a tool name and an argument string. -/
def toolChoice (content : Option String) (calls : List (String × String)) :
    Choice :=
  ⟨⟨"assistant", content, calls.map fun p => ⟨⟨p.1, p.2⟩⟩⟩⟩

/-- A decoder that accepts every argument string as the empty object. -/
def loadsOk : String → Except String Json := fun _ => .ok (.obj .nil)

/-- Environment whose LLM answers one plain assistant message. -/
def envC6 : Env :=
  { tools := [⟨"echo", "echoes a string", .null⟩]
    completions := fun _ => ⟨[plainChoice (some "hello")]⟩
    callTool := fun _ _ => ⟨"res"⟩
    jsonLoads := loadsOk }

/-- Environment whose LLM answers one plain assistant message with absent
(`None`) content. -/
def envC10 : Env :=
  { tools := [⟨"echo", "echoes a string", .null⟩]
    completions := fun _ => ⟨[plainChoice none]⟩
    callTool := fun _ _ => ⟨"res"⟩
    jsonLoads := loadsOk }

/-- Environment whose LLM emits a tool call whose argument string fails to
decode. -/
def envC5 : Env :=
  { tools := [⟨"toolA", "a tool", .null⟩]
    completions := fun n =>
      match n with
      | 0 => ⟨[toolChoice none [("toolA", "not json")]]⟩
      | _ => ⟨[plainChoice (some "done")]⟩
    callTool := fun _ _ => ⟨"res"⟩
    jsonLoads := fun _ => .error "Expecting value" }

/-! More claim theorems. -/

/-- Claim C6: when the LLM's response is a single plain assistant message
with content, `process_query` issues exactly one completion request (the
trace holds the tool listing and that one request, and nothing else —
in particular no tool invocation) and returns exactly that message's
content. -/
theorem c6_plain_response (env : Env) (query : String) (c : Choice)
    (s : String)
    (h0 : (env.completions 0).choices = [c])
    (hr : c.message.role = "assistant")
    (ht : c.message.tool_calls = [])
    (hc : c.message.content = some s) :
    process_query env query =
      { trace := [.listTools,
          .completionRequest [⟨"user", query⟩] (some (availableTools env.tools))]
        result := .ok s } := by
  simp only [process_query, h0]
  rw [runChoices]
  simp only [hr, if_true, ht]
  rw [runChoices]
  simp [finishRun, initSt, hc, intercalate_singleton]

/-- Witness for C6 at a concrete scripted environment. -/
theorem c6_plain_response_witness :
    process_query envC6 "hi" =
      { trace := [.listTools,
          .completionRequest [⟨"user", "hi"⟩] (some (availableTools envC6.tools))]
        result := .ok "hello" } :=
  c6_plain_response envC6 "hi" (plainChoice (some "hello")) "hello"
    rfl rfl rfl rfl

/-- The loop over choices, when every choice is a plain assistant message,
only appends the messages' contents to `final_text`. -/
theorem runChoices_plain (env : Env) (cs : List Choice) (st : LoopSt)
    (hall : ∀ c ∈ cs, c.message.role = "assistant" ∧ c.message.tool_calls = []) :
    runChoices env cs st =
      ({ st with final_text := st.final_text ++ cs.map fun c => c.message.content },
       none) := by
  induction cs generalizing st with
  | nil => simp [runChoices]
  | cons ch rest ih =>
    obtain ⟨hr, ht⟩ := hall ch (List.mem_cons_self ..)
    rw [runChoices]
    simp only [hr, if_true, ht]
    rw [ih _ (fun c hcm => hall c (List.mem_cons_of_mem _ hcm))]
    simp

/-- Claim C10: `None` entries are filtered out of the accumulated output
before joining, so for a response of plain assistant messages the answer is
the newline-join of just the present contents — an absent content never
becomes a textual `"None"`, and a single message with absent content yields
the empty string. -/
theorem c10_none_content_filtered (env : Env) (query : String)
    (cs : List Choice)
    (h0 : (env.completions 0).choices = cs)
    (hall : ∀ c ∈ cs, c.message.role = "assistant" ∧ c.message.tool_calls = []) :
    (process_query env query).result =
      .ok (String.intercalate "\n"
        ((cs.map fun c => c.message.content).filterMap id)) := by
  simp only [process_query, h0]
  rw [runChoices_plain env cs _ hall]
  simp [finishRun, initSt]

/-- Witness for C10: a plain assistant message with absent content yields
the empty string rather than an error or a textual `"None"`. -/
theorem c10_none_content_filtered_witness :
    (process_query envC10 "hi").result = .ok "" :=
  c10_none_content_filtered envC10 "hi" [plainChoice none] rfl
    (by simp [plainChoice])

/-- Claim C5: a tool-call argument payload that fails to decode is fatal
for the whole query and surfaces as the distinguishable JSON decode error:
(1) under an LLM that always returns at least one choice, any exception
escaping `process_query` is a `jsonDecodeError` (in particular the code has
no unknown-tool error and no other argument error); (2) when the first tool
call of the first choice carries an undecodable payload, `process_query`
propagates exactly that decode error, no tool is invoked over RPC, and no
output is produced. -/
theorem c5_argument_decode_fatal (env : Env) (query : String)
    (hc : ∀ n, (env.completions n).choices ≠ []) :
    (∀ e, (process_query env query).result = .error e →
      ∃ m, e = .jsonDecodeError m) ∧
    (∀ c rest tc more m,
      (env.completions 0).choices = c :: rest →
      c.message.role = "assistant" →
      c.message.tool_calls = tc :: more →
      env.jsonLoads tc.function.arguments = .error m →
      process_query env query =
        { trace := [.listTools,
            .completionRequest [⟨"user", query⟩]
              (some (availableTools env.tools))]
          result := .error (.jsonDecodeError m) }) := by
  constructor
  · intro e he
    rw [process_query] at he
    rcases hrc : runChoices env (env.completions 0).choices (initSt env query)
      with ⟨st1, err⟩
    rw [hrc] at he
    cases err with
    | none => simp [finishRun] at he
    | some e2 =>
      simp only [finishRun, Except.error.injEq] at he
      exact he ▸ runChoices_err_kind env hc (env.completions 0).choices
        (initSt env query) st1 e2 hrc
  · intro c rest tc more m h0 hr htc hjm
    simp only [process_query, h0]
    rw [runChoices]
    simp only [hr, if_true, htc]
    rw [runCalls]
    have hone : runCallOne env c.message.content tc (initSt env query) =
        .error (initSt env query, .jsonDecodeError m) := by
      simp [runCallOne, hjm]
    rw [hone]
    simp [stepCont, finishRun, initSt]

/-- Witness for C5: the undecodable payload of a concrete scripted LLM
yields exactly the decode error, with no RPC call in the trace. -/
theorem c5_argument_decode_fatal_witness :
    process_query envC5 "q" =
      { trace := [.listTools,
          .completionRequest [⟨"user", "q"⟩] (some (availableTools envC5.tools))]
        result := .error (.jsonDecodeError "Expecting value") } :=
  (c5_argument_decode_fatal envC5 "q"
      (by intro n; rcases n with _ | k <;> simp [envC5, plainChoice, toolChoice])).2
    (toolChoice none [("toolA", "not json")]) [] ⟨⟨"toolA", "not json"⟩⟩ []
    "Expecting value" rfl rfl rfl rfl

/-- Environment whose LLM requests two tool calls in one assistant
message, then answers plainly. -/
def envC2 : Env :=
  { tools := [⟨"t1", "first tool", .null⟩, ⟨"t2", "second tool", .null⟩]
    completions := fun n =>
      match n with
      | 0 => ⟨[toolChoice none [("t1", "not parsed"), ("t2", "not parsed")]]⟩
      | _ => ⟨[plainChoice (some "ok")]⟩
    callTool := fun _ _ => ⟨"res"⟩
    jsonLoads := loadsOk }

/-- Environment whose LLM requests one tool call in the initial response
and another tool call (of a different tool) in the follow-up response. -/
def envC1 : Env :=
  { tools := [⟨"toolA", "a tool", .null⟩]
    completions := fun n =>
      match n with
      | 0 => ⟨[toolChoice none [("toolA", "not parsed")]]⟩
      | 1 => ⟨[toolChoice (some "follow") [("toolB", "not parsed")]]⟩
      | _ => ⟨[plainChoice (some "done")]⟩
    callTool := fun _ _ => ⟨"res"⟩
    jsonLoads := loadsOk }

/-- Environment whose LLM requests a tool absent from the (empty) tool
list. -/
def envC4 : Env :=
  { tools := []
    completions := fun n =>
      match n with
      | 0 => ⟨[toolChoice none [("ghost", "not parsed")]]⟩
      | _ => ⟨[plainChoice (some "done")]⟩
    callTool := fun _ _ => ⟨"res"⟩
    jsonLoads := loadsOk }

/-- Claim C2: for an assistant message requesting two tool calls, the tool
invoker runs exactly twice, in emission order, and exactly two follow-up
completion requests are issued, each immediately after its tool call and
before the next tool call is dispatched — visible as the exact event-kind
sequence of the trace. -/
theorem c2_two_calls_interleaved (env : Env) (query : String) (c0 : Choice)
    (t1 t2 : ToolCall) (a1 a2 : Json) (c1 c2 : Choice) (r1 r2 : List Choice)
    (h0 : (env.completions 0).choices = [c0])
    (hr : c0.message.role = "assistant")
    (ht : c0.message.tool_calls = [t1, t2])
    (hj1 : env.jsonLoads t1.function.arguments = .ok a1)
    (hj2 : env.jsonLoads t2.function.arguments = .ok a2)
    (h1 : (env.completions 1).choices = c1 :: r1)
    (h2 : (env.completions 2).choices = c2 :: r2) :
    (process_query env query).trace.map eventKind =
      [.listToolsK, .completionK true, .callK t1.function.name,
       .completionK false, .callK t2.function.name, .completionK false] ∧
    ∃ s, (process_query env query).result = .ok s := by
  simp only [process_query, h0]
  rw [runChoices]
  simp only [hr, if_true, ht]
  rw [runCalls]
  rcases hcon : c0.message.content with _ | s
  · simp only [runCallOne, hj1, hcon, initSt, stepCont, h1]
    rw [runCalls]
    simp only [runCallOne, hj2, hcon, stepCont]
    norm_num [h2]
    rw [runCalls]
    simp [finishRun, eventKind, stepCont, runChoices]
  · by_cases hs : s = ""
    · simp only [runCallOne, hj1, hcon, hs, initSt, stepCont, h1]
      rw [runCalls]
      simp only [runCallOne, hj2, hcon, hs, stepCont]
      norm_num [h2]
      rw [runCalls]
      simp [finishRun, eventKind, stepCont, runChoices]
    · simp only [runCallOne, hj1, hcon, hs, initSt, stepCont, h1]
      rw [runCalls]
      simp only [runCallOne, hj2, hcon, hs, stepCont]
      norm_num [h2]
      rw [runCalls]
      simp [finishRun, eventKind, stepCont, runChoices, hs]

/-- Witness for C2 at a concrete scripted environment. -/
theorem c2_two_calls_interleaved_witness :
    (process_query envC2 "hi").trace.map eventKind =
      [.listToolsK, .completionK true, .callK "t1",
       .completionK false, .callK "t2", .completionK false] ∧
    ∃ s, (process_query envC2 "hi").result = .ok s :=
  c2_two_calls_interleaved envC2 "hi"
    (toolChoice none [("t1", "not parsed"), ("t2", "not parsed")])
    ⟨⟨"t1", "not parsed"⟩⟩ ⟨⟨"t2", "not parsed"⟩⟩ (.obj .nil) (.obj .nil)
    (plainChoice (some "ok")) (plainChoice (some "ok")) [] []
    rfl rfl rfl rfl rfl rfl rfl

/-- Counterexample to claim C1 as stated: with this scripted LLM the
follow-up completion response (number 1) itself requests a tool call of
`"toolB"`, yet `process_query` terminates normally without ever dispatching
`"toolB"` over RPC — the loop runs over the snapshot of the initial
response's choices and never inspects follow-up responses for tool calls,
so it does not repeat until the LLM stops requesting tool calls. -/
theorem c1_counterexample :
    ((envC1.completions 1).choices.map fun c =>
      c.message.tool_calls.map fun t => t.function.name) = [["toolB"]] ∧
    (∃ s, (process_query envC1 "hi").result = .ok s) ∧
    callsNamed "toolB" (process_query envC1 "hi").trace = 0 ∧
    callsNamed "toolA" (process_query envC1 "hi").trace = 1 ∧
    completionCount (process_query envC1 "hi").trace = 2 :=
  ⟨rfl, ⟨_, rfl⟩, rfl, rfl, rfl⟩

/-- Claim C1 as amended: under an LLM that always returns at least one
choice and payloads that always decode, `process_query` terminates normally
for every query; the tool calls dispatched over RPC are exactly those
emitted by the initial response's choices, in order, and the number of
completion requests is one (the initial one) plus one follow-up per such
tool call — tool calls requested by follow-up completion responses are
never dispatched. -/
theorem c1_only_initial_response_drives_calls (env : Env) (query : String)
    (hc : ∀ n, (env.completions n).choices ≠ [])
    (hd : ∀ s, ∃ j, env.jsonLoads s = .ok j) :
    (∃ s, (process_query env query).result = .ok s) ∧
    callNames (process_query env query).trace =
      (emittedCalls (env.completions 0).choices).map (fun t => t.function.name) ∧
    completionCount (process_query env query).trace =
      1 + (emittedCalls (env.completions 0).choices).length := by
  obtain ⟨st1, heq, hcn, hcc⟩ := runChoices_ok_spec env hc hd
    (env.completions 0).choices (initSt env query)
  simp only [process_query, heq, finishRun]
  refine ⟨⟨_, rfl⟩, ?_, ?_⟩
  · rw [hcn]
    simp [initSt, callNames]
  · rw [hcc]
    simp [initSt, completionCount]

/-- Witness for the amended C1 at a concrete scripted environment. -/
theorem c1_only_initial_response_drives_calls_witness :
    (∃ s, (process_query envC1 "hi").result = .ok s) ∧
    callNames (process_query envC1 "hi").trace =
      (emittedCalls (envC1.completions 0).choices).map (fun t => t.function.name) ∧
    completionCount (process_query envC1 "hi").trace =
      1 + (emittedCalls (envC1.completions 0).choices).length :=
  c1_only_initial_response_drives_calls envC1 "hi"
    (by intro n; rcases n with _ | _ | k <;> simp [envC1, plainChoice, toolChoice])
    (fun s => ⟨.obj .nil, rfl⟩)

/-- Counterexample to claim C4 as stated: the LLM requests the tool
`"ghost"`, which is absent from the (empty) tool list, yet the invocation
does not fail and exactly one RPC call is issued for it — the code performs
no unknown-tool check before `session.call_tool`. -/
theorem c4_counterexample :
    envC4.tools = [] ∧
    callsNamed "ghost" (process_query envC4 "hi").trace = 1 ∧
    ∃ s, (process_query envC4 "hi").result = .ok s :=
  ⟨rfl, rfl, _, rfl⟩

/-- Claim C4 as amended: a tool call naming a tool absent from the most
recent tool listing is dispatched over the RPC channel exactly like a known
tool (the remote call count for it is nonzero) and the query still
completes normally — no `UnknownToolError` exists in the code. -/
theorem c4_unknown_tool_still_dispatched (env : Env) (query : String)
    (tc : ToolCall)
    (hc : ∀ n, (env.completions n).choices ≠ [])
    (hd : ∀ s, ∃ j, env.jsonLoads s = .ok j)
    (hmem : tc ∈ emittedCalls (env.completions 0).choices)
    (habsent : tc.function.name ∉ env.tools.map (fun t => t.name)) :
    tc.function.name ∈ callNames (process_query env query).trace ∧
    ∃ s, (process_query env query).result = .ok s := by
  obtain ⟨st1, heq, hcn, hcc⟩ := runChoices_ok_spec env hc hd
    (env.completions 0).choices (initSt env query)
  simp only [process_query, heq, finishRun]
  refine ⟨?_, ⟨_, rfl⟩⟩
  rw [hcn]
  simp only [initSt, callNames]
  simp
  exact ⟨tc, hmem, rfl⟩

/-- Witness for the amended C4 at a concrete scripted environment. -/
theorem c4_unknown_tool_still_dispatched_witness :
    "ghost" ∈ callNames (process_query envC4 "hi").trace ∧
    ∃ s, (process_query envC4 "hi").result = .ok s :=
  c4_unknown_tool_still_dispatched envC4 "hi" ⟨⟨"ghost", "not parsed"⟩⟩
    (by intro n; rcases n with _ | k <;> simp [envC4, plainChoice, toolChoice])
    (fun s => ⟨.obj .nil, rfl⟩)
    (by simp [envC4, toolChoice, emittedCalls])
    (by simp [envC4])
